/-
Verification of the gtemplate repository: a shallow embedding of its
Broker (route registry) and TemplateServer (template cache) components,
together with proofs about the claims of the specification.

Modelling conventions:
- Go strings are Lean Strings; byte-level operations work on String.data
  (a List Char), which is accurate for the ASCII paths involved.
- Go maps (map[string]V) are association lists with Go insert/delete
  semantics (AssocMap below).  A nil Go map is Option AssocMap with none.
- Go panics are represented as Except.error carrying the panic message,
  or (for the register functions, where the caller observes the mutated
  receiver) as an Option String panic component next to the final state.
- Filesystem and template-engine effects (os.Stat, os.ReadDir,
  template.ParseFiles, Template.ExecuteTemplate, DataBroker.Data) are
  oracles passed in as explicit parameters: a stat function, an
  inductive directory tree, a parse function and a render-failure
  predicate.
-/
import Mathlib

namespace Gtemplate

/-! ## Association maps with Go map semantics -/

/-- Model of a (non-nil) Go map with string keys: an association list.
Insertion overwrites the existing binding; maps built through the
modelled operations are duplicate-free. -/
def AssocMap (α : Type) : Type := List (String × α)

instance (α : Type) [DecidableEq α] : DecidableEq (AssocMap α) := by
  unfold AssocMap; exact inferInstance

def AssocMap.empty {α : Type} : AssocMap α := []

instance {ε α : Type} [DecidableEq ε] [DecidableEq α] : DecidableEq (Except ε α)
  | Except.error a, Except.error b =>
    if h : a = b then Decidable.isTrue (congrArg Except.error h)
    else Decidable.isFalse (fun hc => h (Except.error.inj hc))
  | Except.error _, Except.ok _ => Decidable.isFalse (fun hc => Except.noConfusion hc)
  | Except.ok _, Except.error _ => Decidable.isFalse (fun hc => Except.noConfusion hc)
  | Except.ok a, Except.ok b =>
    if h : a = b then Decidable.isTrue (congrArg Except.ok h)
    else Decidable.isFalse (fun hc => h (Except.ok.inj hc))

def AssocMap.find? {α : Type} : AssocMap α → String → Option α
  | [], _ => none
  | (k', v) :: rest, k => if k' = k then some v else AssocMap.find? rest k

/-- Go map assignment m[k] = v: replace the binding if present, else add it. -/
def AssocMap.insert {α : Type} : AssocMap α → String → α → AssocMap α
  | [], k, v => [(k, v)]
  | (k', v') :: rest, k, v =>
    if k' = k then (k, v) :: rest else (k', v') :: AssocMap.insert rest k v

/-- Go delete(m, k). -/
def AssocMap.eraseKey {α : Type} : AssocMap α → String → AssocMap α
  | [], _ => []
  | (k', v') :: rest, k =>
    if k' = k then AssocMap.eraseKey rest k else (k', v') :: AssocMap.eraseKey rest k

/-! ## The Go path package (path.Clean, path.Join, path.Split)

gtemplate calls path.Clean, path.Join, path.Split and strings.LastIndex
from the Go standard library.  They are embedded here at the level of
their documented lexical semantics: Clean splits on the separator and
processes the segments with a stack (dot and empty segments dropped,
dot-dot popping the previous segment, with the documented special cases
for rooted paths and for leading dot-dots of relative paths). -/

/-- Split a character list on the separator.  Always non-empty; adjacent
separators and leading/trailing separators yield empty pieces. -/
def splitSlash : List Char → List (List Char)
  | [] => [[]]
  | c :: cs =>
    if c = '/' then [] :: splitSlash cs
    else
      match splitSlash cs with
      | [] => [[c]]
      | s :: ss => (c :: s) :: ss

/-- Join segments with the separator (inverse of splitSlash on
separator-free segments). -/
def joinSegs : List (List Char) → List Char
  | [] => []
  | [s] => s
  | s :: rest => s ++ '/' :: joinSegs rest

/-- One step of path.Clean's segment processing.  The stack holds the
output segments, most recent first. -/
def cleanStep (rooted : Bool) (stack : List (List Char)) (seg : List Char) :
    List (List Char) :=
  if seg = [] ∨ seg = ['.'] then stack
  else if seg = ['.', '.'] then
    match stack with
    | [] => if rooted then [] else [seg]
    | t :: rest => if t = ['.', '.'] then seg :: stack else rest
  else seg :: stack

def cleanSegs (rooted : Bool) (segs : List (List Char)) : List (List Char) :=
  (segs.foldl (cleanStep rooted) []).reverse

/-- Go path.Clean on a character list. -/
def cleanL (p : List Char) : List Char :=
  match p with
  | [] => ['.']
  | c :: _ =>
    let rooted : Bool := decide (c = '/')
    let out := cleanSegs rooted (splitSlash p)
    if rooted then '/' :: joinSegs out
    else if out = [] then ['.'] else joinSegs out

/-- Go path.Clean. -/
def clean (s : String) : String := String.mk (cleanL s.data)

/-- A proper path segment: non-empty, not dot, not dot-dot, and free of
the separator.  Rooted Clean outputs are joined proper segments. -/
def sProper (s : List Char) : Prop :=
  s ≠ [] ∧ s ≠ ['.'] ∧ s ≠ ['.', '.'] ∧ '/' ∉ s

/-- Does the first list occur at the start of the second?
(Helper for lastIndexOf.) -/
def startsWithSeg : List Char → List Char → Bool
  | [], _ => true
  | _ :: _, [] => false
  | a :: as, b :: bs => a == b && startsWithSeg as bs

/-- Go strings.LastIndex(s, sub): index of the last occurrence of sub in
s, or none where Go returns -1. -/
def lastIndexOf (s sub : List Char) : Option Nat :=
  ((List.range (s.length + 1)).filter (fun i => startsWithSeg sub (s.drop i))).getLast?

/-- gtemplate's stringBacktrace on character lists: cut after the last
occurrence of the separator, or return the input unchanged if absent. -/
def stringBacktrace (orig sep : List Char) : List Char :=
  match lastIndexOf orig sep with
  | none => orig
  | some i => orig.take (i + 1)

/-- Go path.Join restricted to two elements, as used by gtemplate:
skip empty elements, join with the separator, then Clean. -/
def goPathJoin (a b : String) : String :=
  if a = "" && b = "" then ""
  else if a = "" then clean b
  else if b = "" then clean a
  else clean (String.mk (a.data ++ '/' :: b.data))

/-- Go path.Split: split after the last separator; with no separator the
directory part is empty. -/
def goPathSplit (p : String) : String × String :=
  match lastIndexOf p.data ['/'] with
  | none => ("", p)
  | some i => (String.mk (p.data.take (i + 1)), String.mk (p.data.drop (i + 1)))

/-! ## gtemplate path handling -/

/-- gtemplate's sanitizePath: empty becomes the root, a leading
separator is enforced, then path.Clean. -/
def sanitizePath (p : String) : String :=
  if p = "" then "/"
  else if p.data.head? = some '/' then clean p
  else clean (String.mk ('/' :: p.data))

/-! ## The Broker (route registry)

brokerEntry's function/interface payloads (map handler, broker function,
delegate broker) are opaque to the registry and lookup logic; they are
modelled by natural-number identifiers so that entry identity is
decidable.  The cls field embeds the Go field named class (a Lean
keyword). -/

/-- The reserved index filename. -/
def DirectoryIndex : String := "index.gohtml"

/-- Handler class constants, in iota order. -/
def NilHandler : Nat := 0
def ConstHandler : Nat := 1
def FuncHandler : Nat := 2
def BrokerHandler : Nat := 3

/-- A dynamically typed handler value passed to registerHandler
(Go interface value); the payload is an opaque identifier. -/
inductive HandlerVal
  | broker (id : Nat)
  | constMap (id : Nat)
  | fn (id : Nat)
deriving DecidableEq

structure brokerEntry where
  cls : Nat := 0
  mapHandler : Option Nat := none
  funcHandler : Option Nat := none
  brokerHandler : Option Nat := none
deriving DecidableEq

/-- The Go zero value brokerEntry{}. -/
def brokerEntry.zero : brokerEntry := {}

/-- The two-level registry map; the Broker's reg field is
Option RegMap, none standing for the nil map of a fresh Broker. -/
def RegMap : Type := AssocMap (AssocMap brokerEntry)

instance : DecidableEq RegMap := by unfold RegMap; exact inferInstance

/-- Go map read b.reg[k] (reads of a nil map yield the zero value). -/
def regFind (reg : Option RegMap) (k : String) : Option (AssocMap brokerEntry) :=
  match reg with
  | none => none
  | some m => AssocMap.find? m k

/-- The body of lookupHandler's upward walk for file-form patterns.
Each iteration backtracks comp to the nearest enclosing directory,
consults its bucket (exact full-path match first, else the recursive
directory-form lookup, passed in as recurse), and otherwise strips
the trailing separator and continues; the Go slice comp[0:len-1] on an
empty comp is the runtime panic modelled by the error result.  The Nat
argument is a step bound that keeps the recursion structural: every
iteration shortens comp, so comp.length + 1 steps always suffice (see
walkF_bound_sufficient) and the bound-exhausted case is unreachable
from lookupHandlerF. -/
def walkF (recurse : String → Except String (brokerEntry × Bool)) (reg : Option RegMap)
    (pattern : String) : Nat → List Char → Except String (brokerEntry × Bool)
  | 0, _ => .error "model: walk step bound exhausted"
  | bound + 1, comp =>
    if comp = ['/'] then .ok (brokerEntry.zero, false)
    else
      match regFind reg (String.mk (stringBacktrace comp ['/'])) with
      | some e =>
        match AssocMap.find? e pattern with
        | some s => .ok (s, true)
        | none => recurse (String.mk (stringBacktrace comp ['/']))
      | none =>
        if (stringBacktrace comp ['/']).length = 0 then
          .error "panic: runtime error: slice bounds out of range"
        else
          walkF recurse reg pattern bound
            ((stringBacktrace comp ['/']).take ((stringBacktrace comp ['/']).length - 1))

/-- The directory prefixes consulted by the walk, in order (the final
empty prefix included: the bucket for the empty string is consulted in
the iteration that panics at the slice); same step bound as walkF. -/
def walkComps : Nat → List Char → List (List Char)
  | 0, _ => []
  | bound + 1, comp =>
    if comp = ['/'] then []
    else
      stringBacktrace comp ['/'] ::
        (if (stringBacktrace comp ['/']).length = 0 then []
         else
           walkComps bound
             ((stringBacktrace comp ['/']).take ((stringBacktrace comp ['/']).length - 1)))

/-- lookupHandler with explicit recursion fuel: the fuel bounds nested
lookupHandler invocations (the source recursion through the walk); two
levels suffice for separator-rooted patterns, and exhausted fuel models
the unbounded recursion the source exhibits on degenerate registries.
Errors carry the Go runtime panic that the corresponding source line
raises; the ok results are the function's ordinary returns. -/
def lookupHandlerF : Nat → Option RegMap → String → Except String (brokerEntry × Bool)
  | 0, _, _ => .error "model: lookup recursion fuel exhausted"
  | fuel + 1, reg, pattern =>
    if pattern.data.length = 0 then .error "panic: runtime error: index out of range"
    else if pattern.data.getLast? = some '/' then
      match regFind reg pattern with
      | some e =>
        match AssocMap.find? e pattern with
        | some s => .ok (s, true)
        | none =>
          match AssocMap.find? e (goPathJoin pattern DirectoryIndex) with
          | some s => .ok (s, true)
          | none => .ok (brokerEntry.zero, false)
      | none => .ok (brokerEntry.zero, false)
    else
      walkF (lookupHandlerF fuel reg) reg pattern (pattern.data.length + 1)
        pattern.data

/-- lookupHandler of the Broker. -/
def lookupHandler (reg : Option RegMap) (pattern : String) :
    Except String (brokerEntry × Bool) :=
  lookupHandlerF 2 reg pattern

/-- The entry construction in registerHandler's switch over class: the
type assertions on the handler value and the default panic. -/
def buildEntry (cls : Nat) (handler : HandlerVal) : Except String brokerEntry :=
  if cls = BrokerHandler then
    match handler with
    | HandlerVal.broker i => .ok { cls := cls, brokerHandler := some i }
    | _ => .error "panic: interface conversion: handler is not a DataBroker"
  else if cls = ConstHandler then
    match handler with
    | HandlerVal.constMap i => .ok { cls := cls, mapHandler := some i }
    | _ => .error "panic: interface conversion: handler is not a map"
  else if cls = FuncHandler then
    match handler with
    | HandlerVal.fn i => .ok { cls := cls, funcHandler := some i }
    | _ => .error "panic: interface conversion: handler is not a BrokerFunc"
  else if cls = NilHandler then .ok { cls := cls }
  else .error "panic: gtemplate: broker: unknown handler type"

/-- registerDirectory: returns the new registry and the panic message if
the call panics (in which case the registry is the receiver's state at
the panic, which the source never mutates before panicking). -/
def registerDirectory (reg : RegMap) (pattern : String) (entry : brokerEntry) :
    RegMap × Option String :=
  match AssocMap.find? reg pattern with
  | some m =>
    if (AssocMap.find? m pattern).isSome then
      (reg, some "panic: gtemplate: broker: attempted to re-register directory")
    else
      let needIndex := (AssocMap.find? m (goPathJoin pattern DirectoryIndex)).isNone
      let m1 := AssocMap.insert m pattern entry
      let m2 := if needIndex then AssocMap.insert m1 (goPathJoin pattern DirectoryIndex) entry
                else m1
      (AssocMap.insert reg pattern m2, none)
  | none =>
    let m1 := AssocMap.insert AssocMap.empty pattern entry
    let m2 := AssocMap.insert m1 (goPathJoin pattern DirectoryIndex) entry
    (AssocMap.insert reg pattern m2, none)

/-- registerFile, with the same result convention as registerDirectory. -/
def registerFile (reg : RegMap) (pattern : String) (entry : brokerEntry) :
    RegMap × Option String :=
  let dir := (goPathSplit pattern).1
  let file := (goPathSplit pattern).2
  if file = DirectoryIndex then
    (reg, some "panic: gtemplate: broker: attempted to register handler for index - use directory instead")
  else
    match AssocMap.find? reg dir with
    | some m =>
      if (AssocMap.find? m pattern).isSome then
        (reg, some "panic: gtemplate: broker: attempted to re-register file")
      else (AssocMap.insert reg dir (AssocMap.insert m pattern entry), none)
    | none => (AssocMap.insert reg dir (AssocMap.insert AssocMap.empty pattern entry), none)

/-- The registry created by the lazy initialization in registerHandler:
a single empty bucket for the root directory. -/
def rootOnlyReg : RegMap := AssocMap.insert AssocMap.empty "/" AssocMap.empty

/-- registerHandler: validates the pattern and handler, lazily
initializes the nil registry, builds the typed entry, and dispatches on
the pattern form.  The result pairs the Broker's registry after the call
with the panic message if the call panicked. -/
def registerHandler (st : Option RegMap) (pattern : String) (cls : Nat)
    (handler : Option HandlerVal) : Option RegMap × Option String :=
  if pattern = "" then (st, some "panic: gtemplate: broker: empty pattern")
  else
    match handler with
    | none => (st, some "panic: gtemplate: broker: nil handler")
    | some h =>
      let reg := match st with
        | none => rootOnlyReg
        | some r => r
      match buildEntry cls h with
      | Except.error msg => (some reg, some msg)
      | Except.ok entry =>
        if pattern.data.getLast? = some '/' then
          let res := registerDirectory reg pattern entry
          (some res.1, res.2)
        else
          let res := registerFile reg pattern entry
          (some res.1, res.2)

/-- The panic trigger for duplicate directory registration: the pattern
is directory-form and its bucket already holds the directory's own
entry. -/
def dupDirTrigger (st : Option RegMap) (pattern : String) : Bool :=
  decide (pattern.data.getLast? = some '/') &&
    (match regFind st pattern with
     | some m => (AssocMap.find? m pattern).isSome
     | none => false)

/-- The panic trigger for duplicate file registration: the pattern is
file-form, not the reserved index name, and its directory's bucket
already holds the exact path. -/
def dupFileTrigger (st : Option RegMap) (pattern : String) : Bool :=
  decide (pattern ≠ "") && !decide (pattern.data.getLast? = some '/') &&
    decide ((goPathSplit pattern).2 ≠ DirectoryIndex) &&
    (match regFind st (goPathSplit pattern).1 with
     | some m => (AssocMap.find? m pattern).isSome
     | none => false)

/-- The panic trigger for registering the reserved index filename as a
file. -/
def indexFileTrigger (pattern : String) : Bool :=
  decide (pattern ≠ "") && !decide (pattern.data.getLast? = some '/') &&
    decide ((goPathSplit pattern).2 = DirectoryIndex)

/-- The outcome of resolution read off a single bucket: the exact
full-path entry, else the directory's own entry, else its index entry,
else no match.  Mentions nothing but the one bucket. -/
def resultOfBucket (bucket : AssocMap brokerEntry) (dir pattern : String) :
    brokerEntry × Bool :=
  match AssocMap.find? bucket pattern with
  | some s => (s, true)
  | none =>
    match AssocMap.find? bucket dir with
    | some s => (s, true)
    | none =>
      match AssocMap.find? bucket (goPathJoin dir DirectoryIndex) with
      | some s => (s, true)
      | none => (brokerEntry.zero, false)

/-! ## The TemplateServer (template cache) -/

/-- The errors loadTemplate can return: ErrAlreadyParsed, or the parse
error from the template engine. -/
inductive GErr
  | alreadyParsed
  | parseFailed
deriving DecidableEq

/-- The TemplateServer's state.  Compiled templates are opaque
identifiers; a none value is a nil pointer stored in the map (as the
failed ParseFiles assignment briefly does).  The data broker does not
appear: its Data call and the template execution that consumes it are
abstracted into the render oracle of serveHTTP. -/
structure TemplateServerState where
  templates : AssocMap (Option Nat)
  includes : List String
  root : String
deriving DecidableEq

/-- loadTemplate: the parse oracle stands for template.ParseFiles on the
compilation unit (the include set plus the one target file); none is a
parse failure or missing file. -/
def loadTemplate (parse : List String → Option Nat) (srv : TemplateServerState)
    (path : String) : TemplateServerState × Option GErr :=
  let files := srv.includes ++ [goPathJoin srv.root path]
  if (AssocMap.find? srv.templates path).isSome then (srv, some GErr.alreadyParsed)
  else
    match parse files with
    | some t =>
      ({ srv with templates := AssocMap.insert srv.templates path (some t) }, none)
    | none =>
      ({ srv with templates :=
          AssocMap.eraseKey (AssocMap.insert srv.templates path none) path },
        some GErr.parseFailed)

inductive HTTPOutcome
  | rendered
  | notFound
  | internalError
deriving DecidableEq

/-- The request path as ServeHTTP computes it: the literal root path is
replaced by the index file first, and the result sanitized. -/
def normalizeRequest (raw : String) : String :=
  sanitizePath (if raw = "/" then "/index.gohtml" else raw)

/-- The tail of ServeHTTP after a cache miss: compile, answer 404 on any
loadTemplate error, else render (execFails abstracts the broker's Data
call plus ExecuteTemplate, saying whether rendering path p fails). -/
def serveAfterMiss (parse : List String → Option Nat) (execFails : String → Bool)
    (srv : TemplateServerState) (p : String) : TemplateServerState × HTTPOutcome :=
  let res := loadTemplate parse srv p
  match res.2 with
  | some _ => (res.1, HTTPOutcome.notFound)
  | none =>
    (res.1, if execFails p then HTTPOutcome.internalError else HTTPOutcome.rendered)

/-- ServeHTTP as one sequential request: normalize, serve from cache on
a hit, otherwise compile and serve. -/
def serveHTTP (parse : List String → Option Nat) (execFails : String → Bool)
    (srv : TemplateServerState) (raw : String) : TemplateServerState × HTTPOutcome :=
  let p := normalizeRequest raw
  if (AssocMap.find? srv.templates p).isSome then
    (srv, if execFails p then HTTPOutcome.internalError else HTTPOutcome.rendered)
  else serveAfterMiss parse execFails srv p

/-! ## Construction (NewServer, NewIncludesServer, loadIncludes) -/

/-- What os.Stat reports for a path. -/
inductive FKind
  | dir
  | file
  | missing
deriving DecidableEq

/-- A filesystem subtree: a regular file, or a directory listing. -/
inductive FNode
  | file : FNode
  | dir : List (String × FNode) → FNode

/-- Construction errors: ErrRootInvalid and ErrIncludesInvalid. -/
inductive ConsErr
  | rootInvalid
  | includesInvalid
deriving DecidableEq

/-- verifyDirectory: os.Stat failure or a non-directory is invalid. -/
def verifyDirectory (stat : String → FKind) (dir : String) : Bool :=
  match stat dir with
  | FKind.missing => false
  | FKind.file => false
  | FKind.dir => true

/-- The recursive walk of loadIncludes over a directory listing,
accumulating include file paths; subdirectory errors abort the walk. -/
def loadIncludesDir : String → List (String × FNode) → List String →
    List String × Option ConsErr
  | _, [], acc => (acc, none)
  | path, (name, FNode.dir es) :: rest, acc =>
    match loadIncludesDir (goPathJoin path name) es acc with
    | (acc2, some e) => (acc2, some e)
    | (acc2, none) => loadIncludesDir path rest acc2
  | path, (name, FNode.file) :: rest, acc =>
    loadIncludesDir path rest (acc ++ [goPathJoin path name])

/-- loadIncludes: os.ReadDir on a missing path is the IsNotExist error
the source maps to ErrIncludesInvalid; on a regular file os.ReadDir
fails with an error the source matches against neither IsNotExist nor
ErrInvalid, so the call falls through with no entries and returns
nil. -/
def loadIncludes (path : String) (node : Option FNode) : List String × Option ConsErr :=
  match node with
  | none => ([], some ConsErr.includesInvalid)
  | some FNode.file => ([], none)
  | some (FNode.dir es) => loadIncludesDir path es []

/-- NewServer: validates the document root, then builds the server. -/
def NewServer (stat : String → FKind) (root : String) :
    Option TemplateServerState × Option ConsErr :=
  if !(verifyDirectory stat root) then (none, some ConsErr.rootInvalid)
  else (some { templates := AssocMap.empty, includes := [], root := root }, none)

/-- NewIncludesServer: builds the server and loads the include tree
rooted at includeRoot (passed as a tree, none when the path does not
exist).  The source performs no stat of the document root, so the
embedding takes no stat oracle. -/
def NewIncludesServer (root includeRoot : String) (tree : Option FNode) :
    Option TemplateServerState × Option ConsErr :=
  let res := loadIncludes includeRoot tree
  match res.2 with
  | some e => (none, some e)
  | none => (some { templates := AssocMap.empty, includes := res.1, root := root }, none)

/-! ## Properties of path cleaning

path.Clean's output on a rooted path is the separator followed by
joined proper segments, and such strings are fixed points of Clean:
this yields idempotence of sanitizePath. -/

theorem splitSlash_ne_nil (p : List Char) : splitSlash p ≠ [] := by
  induction p with
  | nil => simp [splitSlash]
  | cons c cs ih =>
    simp only [splitSlash]
    by_cases h : c = '/'
    · simp [h]
    · rw [if_neg h]
      cases hs : splitSlash cs with
      | nil => simp
      | cons s ss => simp

theorem mem_splitSlash_no_slash (p : List Char) :
    ∀ s ∈ splitSlash p, '/' ∉ s := by
  induction p with
  | nil => intro s hs; simp [splitSlash] at hs; simp [hs]
  | cons c cs ih =>
    intro s hs
    simp only [splitSlash] at hs
    by_cases h : c = '/'
    · rw [if_pos h] at hs
      rcases List.mem_cons.mp hs with hs | hs
      · simp [hs]
      · exact ih s hs
    · rw [if_neg h] at hs
      cases hsp : splitSlash cs with
      | nil => exact absurd hsp (splitSlash_ne_nil cs)
      | cons t ts =>
        rw [hsp] at hs
        rcases List.mem_cons.mp hs with hs | hs
        · subst hs
          intro hmem
          rcases List.mem_cons.mp hmem with hc | ht
          · exact h hc.symm
          · have := ih t (by rw [hsp]; exact List.mem_cons_self t ts)
            exact this ht
        · exact ih s (by rw [hsp]; exact List.mem_cons_of_mem t hs)

theorem cleanStep_of_proper (rooted : Bool) (stack : List (List Char))
    (seg : List Char) (h : sProper seg) :
    cleanStep rooted stack seg = seg :: stack := by
  obtain ⟨h1, h2, h3, _⟩ := h
  unfold cleanStep
  rw [if_neg (by simp [h1, h2]), if_neg h3]

theorem foldl_cleanStep_id (rooted : Bool) (segs : List (List Char)) :
    ∀ stack, (∀ s ∈ segs, sProper s) →
      segs.foldl (cleanStep rooted) stack = segs.reverse ++ stack := by
  induction segs with
  | nil => intro stack _; simp
  | cons a rest ih =>
    intro stack h
    have ha : sProper a := h a (List.mem_cons_self a rest)
    simp only [List.foldl_cons, cleanStep_of_proper rooted stack a ha]
    rw [ih (a :: stack) (fun s hs => h s (List.mem_cons_of_mem a hs))]
    simp

theorem cleanSegs_proper_id (rooted : Bool) (segs : List (List Char))
    (h : ∀ s ∈ segs, sProper s) : cleanSegs rooted segs = segs := by
  unfold cleanSegs
  rw [foldl_cleanStep_id rooted segs [] h]
  simp

theorem cleanStep_proper (stack : List (List Char)) (seg : List Char)
    (hseg : '/' ∉ seg) (hst : ∀ s ∈ stack, sProper s) :
    ∀ s ∈ cleanStep true stack seg, sProper s := by
  intro s hs
  unfold cleanStep at hs
  by_cases h1 : seg = [] ∨ seg = ['.']
  · rw [if_pos h1] at hs; exact hst s hs
  · rw [if_neg h1] at hs
    by_cases h2 : seg = ['.', '.']
    · rw [if_pos h2] at hs
      cases stack with
      | nil => simp at hs
      | cons t rest =>
        have ht : sProper t := hst t (List.mem_cons_self t rest)
        have hs' : s ∈ (if t = ['.', '.'] then seg :: t :: rest else rest) := hs
        rw [if_neg ht.2.2.1] at hs'
        exact hst s (List.mem_cons_of_mem t hs')
    · rw [if_neg h2] at hs
      rcases List.mem_cons.mp hs with hs | hs
      · subst hs
        exact ⟨fun hc => h1 (Or.inl hc), fun hc => h1 (Or.inr hc), h2, hseg⟩
      · exact hst s hs

theorem foldl_cleanStep_proper (segs : List (List Char)) :
    ∀ stack, (∀ s ∈ segs, '/' ∉ s) → (∀ s ∈ stack, sProper s) →
      ∀ s ∈ segs.foldl (cleanStep true) stack, sProper s := by
  induction segs with
  | nil => intro stack _ hst s hs; exact hst s hs
  | cons a rest ih =>
    intro stack h hst s hs
    exact ih (cleanStep true stack a)
      (fun t ht => h t (List.mem_cons_of_mem a ht))
      (cleanStep_proper stack a (h a (List.mem_cons_self a rest)) hst) s hs

theorem cleanSegs_proper (segs : List (List Char))
    (h : ∀ s ∈ segs, '/' ∉ s) : ∀ s ∈ cleanSegs true segs, sProper s := by
  intro s hs
  unfold cleanSegs at hs
  exact foldl_cleanStep_proper segs [] h (by simp) s (List.mem_reverse.mp hs)

theorem splitSlash_no_slash_id (s : List Char) (h : '/' ∉ s) : splitSlash s = [s] := by
  induction s with
  | nil => simp [splitSlash]
  | cons c cs ih =>
    have hc : c ≠ '/' := fun hc => h (by simp [hc])
    have hcs : '/' ∉ cs := fun hm => h (List.mem_cons_of_mem c hm)
    simp only [splitSlash]
    rw [if_neg (fun hc' => hc hc'), ih hcs]

theorem splitSlash_append_slash (s t : List Char) (h : '/' ∉ s) :
    splitSlash (s ++ '/' :: t) = s :: splitSlash t := by
  induction s with
  | nil => simp [splitSlash]
  | cons c cs ih =>
    have hc : c ≠ '/' := fun hc => h (by simp [hc])
    have hcs : '/' ∉ cs := fun hm => h (List.mem_cons_of_mem c hm)
    simp only [List.cons_append, splitSlash]
    rw [if_neg (fun hc' => hc hc')]
    simp only [List.append_eq]
    rw [ih hcs]

theorem splitSlash_joinSegs (out : List (List Char)) (hne : out ≠ [])
    (h : ∀ s ∈ out, '/' ∉ s) : splitSlash (joinSegs out) = out := by
  induction out with
  | nil => exact absurd rfl hne
  | cons s rest ih =>
    cases rest with
    | nil =>
      simp only [joinSegs]
      exact splitSlash_no_slash_id s (h s (List.mem_cons_self s []))
    | cons s2 rest2 =>
      have hj : joinSegs (s :: s2 :: rest2) = s ++ '/' :: joinSegs (s2 :: rest2) := rfl
      rw [hj, splitSlash_append_slash s _ (h s (List.mem_cons_self s _)),
        ih (by simp) (fun x hx => h x (List.mem_cons_of_mem s hx))]

theorem cleanSegs_skip_empty (out : List (List Char)) (h : ∀ s ∈ out, sProper s) :
    cleanSegs true ([] :: out) = out := by
  unfold cleanSegs
  have h0 : cleanStep true [] [] = [] := by decide
  simp only [List.foldl_cons, h0]
  rw [foldl_cleanStep_id true out [] h]
  simp

theorem cleanL_fixed_of_proper (out : List (List Char)) (h : ∀ s ∈ out, sProper s) :
    cleanL ('/' :: joinSegs out) = '/' :: joinSegs out := by
  cases out with
  | nil => decide
  | cons o os =>
    have hout : ∀ s ∈ o :: os, '/' ∉ s := fun s hs => (h s hs).2.2.2
    have hsplit : splitSlash ('/' :: joinSegs (o :: os)) = [] :: o :: os := by
      have h1 : splitSlash ('/' :: joinSegs (o :: os)) =
          [] :: splitSlash (joinSegs (o :: os)) := by
        simp [splitSlash]
      rw [h1, splitSlash_joinSegs (o :: os) (by simp) hout]
    have hstep : cleanL ('/' :: joinSegs (o :: os)) =
        '/' :: joinSegs (cleanSegs true (splitSlash ('/' :: joinSegs (o :: os)))) := rfl
    rw [hstep, hsplit, cleanSegs_skip_empty (o :: os) h]

theorem cleanL_rooted_form (cs : List Char) :
    ∃ out, (∀ s ∈ out, sProper s) ∧ cleanL ('/' :: cs) = '/' :: joinSegs out := by
  refine ⟨cleanSegs true (splitSlash ('/' :: cs)), ?_, ?_⟩
  · exact cleanSegs_proper _ (mem_splitSlash_no_slash _)
  · rfl

theorem sanitize_fix_aux (cs : List Char) :
    sanitizePath (String.mk (cleanL ('/' :: cs))) = String.mk (cleanL ('/' :: cs)) ∧
    String.mk (cleanL ('/' :: cs)) ≠ "" ∧
    (String.mk (cleanL ('/' :: cs))).data.head? = some '/' := by
  obtain ⟨out, hproper, heq⟩ := cleanL_rooted_form cs
  rw [heq]
  have hne : String.mk ('/' :: joinSegs out) ≠ "" := by
    intro hc
    have hdata := congrArg String.data hc
    exact List.noConfusion hdata
  refine ⟨?_, hne, rfl⟩
  unfold sanitizePath
  rw [if_neg hne, if_pos (show (String.mk ('/' :: joinSegs out)).data.head? = some '/' from rfl)]
  show String.mk (cleanL ('/' :: joinSegs out)) = String.mk ('/' :: joinSegs out)
  rw [cleanL_fixed_of_proper out hproper]

/-- C10: sanitizePath is idempotent and canonicalizing: its result is a
fixed point of sanitizePath, non-empty, and starts with the separator -
hence cache keys and data-source paths are always in this canonical
form. -/
theorem sanitizePath_canonical_parts (p : String) :
    sanitizePath (sanitizePath p) = sanitizePath p ∧
    sanitizePath p ≠ "" ∧ (sanitizePath p).data.head? = some '/' := by
  by_cases hp : p = ""
  · subst hp; exact ⟨by decide, by decide, by decide⟩
  · by_cases hd : p.data.head? = some '/'
    · obtain ⟨cs, hcs⟩ : ∃ cs, p.data = '/' :: cs := by
        cases hpd : p.data with
        | nil => rw [hpd] at hd; exact Option.noConfusion hd
        | cons c cs' =>
          rw [hpd] at hd
          simp only [List.head?_cons, Option.some.injEq] at hd
          exact ⟨cs', by rw [hd]⟩
      have hform : sanitizePath p = String.mk (cleanL ('/' :: cs)) := by
        unfold sanitizePath
        rw [if_neg hp, if_pos hd]
        show String.mk (cleanL p.data) = _
        rw [hcs]
      rw [hform]
      exact sanitize_fix_aux cs
    · have hform : sanitizePath p = String.mk (cleanL ('/' :: p.data)) := by
        unfold sanitizePath
        rw [if_neg hp, if_neg hd]
        rfl
      rw [hform]
      exact sanitize_fix_aux p.data

/-! ## Properties of the association maps -/

theorem AssocMap.find?_insert {α : Type} (m : AssocMap α) (k : String) (v : α)
    (k' : String) :
    AssocMap.find? (AssocMap.insert m k v) k' =
      if k = k' then some v else AssocMap.find? m k' := by
  induction m with
  | nil => simp [AssocMap.insert, AssocMap.find?]
  | cons e rest ih =>
    obtain ⟨k0, v0⟩ := e
    simp only [AssocMap.insert]
    by_cases h0 : k0 = k
    · rw [if_pos h0]
      simp only [AssocMap.find?]
      by_cases h1 : k = k'
      · rw [if_pos h1, if_pos h1]
      · rw [if_neg h1, if_neg h1, if_neg (h0 ▸ h1 : ¬k0 = k')]
    · rw [if_neg h0]
      simp only [AssocMap.find?]
      by_cases h1 : k0 = k'
      · rw [if_pos h1, if_neg (fun hk => h0 (h1.trans hk.symm)), if_pos h1]
      · rw [if_neg h1, if_neg h1, ih]

theorem AssocMap.find?_eraseKey {α : Type} (m : AssocMap α) (k k' : String) :
    AssocMap.find? (AssocMap.eraseKey m k) k' =
      if k = k' then none else AssocMap.find? m k' := by
  induction m with
  | nil => simp [AssocMap.eraseKey, AssocMap.find?]
  | cons e rest ih =>
    obtain ⟨k0, v0⟩ := e
    simp only [AssocMap.eraseKey]
    by_cases h0 : k0 = k
    · rw [if_pos h0, ih]
      by_cases h1 : k = k'
      · rw [if_pos h1, if_pos h1]
      · rw [if_neg h1, if_neg h1]
        simp only [AssocMap.find?]
        rw [if_neg (h0 ▸ h1 : ¬k0 = k')]
    · rw [if_neg h0]
      simp only [AssocMap.find?]
      by_cases h1 : k0 = k'
      · rw [if_pos h1, if_neg (fun hk => h0 (h1.trans hk.symm)), if_pos h1]
      · rw [if_neg h1, ih]
        by_cases h2 : k = k'
        · rw [if_pos h2, if_pos h2]
        · rw [if_neg h2, if_neg h2, if_neg h1]

theorem AssocMap.eraseKey_of_find?_none {α : Type} (m : AssocMap α) (k : String)
    (h : AssocMap.find? m k = none) : AssocMap.eraseKey m k = m := by
  induction m with
  | nil => rfl
  | cons e rest ih =>
    obtain ⟨k0, v0⟩ := e
    simp only [AssocMap.find?] at h
    by_cases h0 : k0 = k
    · rw [if_pos h0] at h; exact Option.noConfusion h
    · rw [if_neg h0] at h
      simp only [AssocMap.eraseKey]
      rw [if_neg h0, ih h]

theorem AssocMap.eraseKey_insert_cancel {α : Type} (m : AssocMap α) (k : String)
    (v : α) (h : AssocMap.find? m k = none) :
    AssocMap.eraseKey (AssocMap.insert m k v) k = m := by
  induction m with
  | nil => simp [AssocMap.insert, AssocMap.eraseKey]
  | cons e rest ih =>
    obtain ⟨k0, v0⟩ := e
    simp only [AssocMap.find?] at h
    by_cases h0 : k0 = k
    · rw [if_pos h0] at h; exact Option.noConfusion h
    · rw [if_neg h0] at h
      simp only [AssocMap.insert]
      rw [if_neg h0]
      simp only [AssocMap.eraseKey]
      rw [if_neg h0, ih h]

/-! ## The template cache and construction claims -/

theorem loadTemplate_hit (parse : List String → Option Nat)
    (srv : TemplateServerState) (p : String)
    (h : (AssocMap.find? srv.templates p).isSome) :
    loadTemplate parse srv p = (srv, some GErr.alreadyParsed) := by
  simp only [loadTemplate]
  rw [if_pos h]

theorem loadTemplate_fail (parse : List String → Option Nat)
    (srv : TemplateServerState) (p : String)
    (hmiss : AssocMap.find? srv.templates p = none)
    (hparse : parse (srv.includes ++ [goPathJoin srv.root p]) = none) :
    loadTemplate parse srv p = (srv, some GErr.parseFailed) := by
  simp only [loadTemplate, hmiss, hparse, Option.isSome_none, Bool.false_eq_true,
    if_false]
  rw [AssocMap.eraseKey_insert_cancel _ _ _ hmiss]

theorem loadTemplate_preserves (parse : List String → Option Nat)
    (srv : TemplateServerState) (p q : String) (t : Option Nat)
    (hq : AssocMap.find? srv.templates q = some t) :
    AssocMap.find? (loadTemplate parse srv p).1.templates q = some t := by
  by_cases hp : (AssocMap.find? srv.templates p).isSome
  · rw [loadTemplate_hit parse srv p hp]
    exact hq
  · have hpn : AssocMap.find? srv.templates p = none := by
      cases hfind : AssocMap.find? srv.templates p with
      | none => rfl
      | some v => rw [hfind] at hp; exact absurd rfl hp
    have hne : ¬p = q := fun h => by rw [h, hq] at hpn; exact Option.noConfusion hpn
    simp only [loadTemplate, hpn, Option.isSome_none, Bool.false_eq_true, if_false]
    cases hparse : parse (srv.includes ++ [goPathJoin srv.root p]) with
    | some v =>
      simp only []
      rw [AssocMap.find?_insert, if_neg hne]
      exact hq
    | none =>
      simp only []
      rw [AssocMap.find?_eraseKey, if_neg hne, AssocMap.find?_insert, if_neg hne]
      exact hq

/-- C8: the template cache is monotone: an entry once present survives
every ServeHTTP request (hit, compile success or failure, render
failure) and every loadTemplate call, unchanged. -/
theorem cache_monotone (parse : List String → Option Nat) (execFails : String → Bool)
    (srv : TemplateServerState) (raw q : String) (t : Option Nat)
    (hq : AssocMap.find? srv.templates q = some t) :
    AssocMap.find? (serveHTTP parse execFails srv raw).1.templates q = some t ∧
    ∀ p', AssocMap.find? (loadTemplate parse srv p').1.templates q = some t := by
  constructor
  · simp only [serveHTTP]
    by_cases hh : (AssocMap.find? srv.templates (normalizeRequest raw)).isSome
    · rw [if_pos hh]; exact hq
    · rw [if_neg hh]
      simp only [serveAfterMiss]
      cases hres : (loadTemplate parse srv (normalizeRequest raw)).2 with
      | some e =>
        simp only []
        exact loadTemplate_preserves parse srv _ q t hq
      | none =>
        simp only []
        exact loadTemplate_preserves parse srv _ q t hq
  · intro p'
    exact loadTemplate_preserves parse srv p' q t hq

theorem cache_monotone_witness :
    AssocMap.find? (TemplateServerState.mk [("/x", some 1)] [] "pub").templates "/x" =
      some (some 1) ∧
    AssocMap.find?
      (serveHTTP (fun _ => none) (fun _ => false)
        (TemplateServerState.mk [("/x", some 1)] [] "pub") "/y").1.templates "/x" =
      some (some 1) :=
  ⟨by decide,
    (cache_monotone (fun _ => none) (fun _ => false)
      (TemplateServerState.mk [("/x", some 1)] [] "pub") "/y" "/x" (some 1)
      (by decide)).1⟩

/-- C7: a failed compilation yields a 404 outcome and leaves the whole
server state exactly as it was, so every later request for the path
retries compilation. -/
theorem compile_failure_atomic (parse : List String → Option Nat)
    (execFails : String → Bool) (srv : TemplateServerState) (raw : String)
    (hmiss : AssocMap.find? srv.templates (normalizeRequest raw) = none)
    (hparse : parse (srv.includes ++ [goPathJoin srv.root (normalizeRequest raw)]) = none) :
    serveHTTP parse execFails srv raw = (srv, HTTPOutcome.notFound) ∧
    loadTemplate parse srv (normalizeRequest raw) = (srv, some GErr.parseFailed) := by
  have hload := loadTemplate_fail parse srv (normalizeRequest raw) hmiss hparse
  refine ⟨?_, hload⟩
  simp only [serveHTTP]
  rw [if_neg (by rw [hmiss]; exact fun hc => Bool.noConfusion hc)]
  simp only [serveAfterMiss, hload]

theorem compile_failure_atomic_witness :
    AssocMap.find? (TemplateServerState.mk [] [] "pub").templates
      (normalizeRequest "/x") = none ∧
    serveHTTP (fun _ => none) (fun _ => false) (TemplateServerState.mk [] [] "pub")
      "/x" = (TemplateServerState.mk [] [] "pub", HTTPOutcome.notFound) :=
  ⟨by decide,
    (compile_failure_atomic (fun _ => none) (fun _ => false)
      (TemplateServerState.mk [] [] "pub") "/x" (by decide) rfl).1⟩

/-- C1: when the cache already holds an entry for the path as
loadTemplate runs (the state a losing concurrent compiler observes),
loadTemplate returns ErrAlreadyParsed and the miss continuation of
ServeHTTP turns that error into a 404 response instead of serving the
cached template: the race loser is surfaced as a spurious not-found. -/
theorem race_loser_gets_404 (parse : List String → Option Nat)
    (execFails : String → Bool) (srv : TemplateServerState) (p : String)
    (t : Option Nat) (hc : AssocMap.find? srv.templates p = some t) :
    (loadTemplate parse srv p).2 = some GErr.alreadyParsed ∧
    serveAfterMiss parse execFails srv p = (srv, HTTPOutcome.notFound) := by
  have hsome : (AssocMap.find? srv.templates p).isSome := by rw [hc]; rfl
  have hload := loadTemplate_hit parse srv p hsome
  constructor
  · rw [hload]
  · simp only [serveAfterMiss, hload]

theorem race_loser_gets_404_witness :
    AssocMap.find? (TemplateServerState.mk [("/x", some 1)] [] "pub").templates "/x" =
      some (some 1) ∧
    serveAfterMiss (fun _ => some 2) (fun _ => false)
      (TemplateServerState.mk [("/x", some 1)] [] "pub") "/x" =
      (TemplateServerState.mk [("/x", some 1)] [] "pub", HTTPOutcome.notFound) :=
  ⟨by decide,
    (race_loser_gets_404 (fun _ => some 2) (fun _ => false)
      (TemplateServerState.mk [("/x", some 1)] [] "pub") "/x" (some 1) (by decide)).2⟩

/-- C3 counterexample: the request path /a/../ normalizes to the root
but is not mapped to the reserved index file, because ServeHTTP
substitutes the index before sanitizing. -/
theorem root_normalization_counterexample :
    sanitizePath "/a/../" = "/" ∧ normalizeRequest "/a/../" ≠ "/index.gohtml" := by
  decide

/-- C3 (amended): ServeHTTP maps the literal request path the separator
alone to the index file first, and every other raw path is served under
its sanitized form, so paths merely normalizing to the root are not
served as the index. -/
theorem index_substitution_precedes_normalization :
    normalizeRequest "/" = "/index.gohtml" ∧
    ∀ raw : String, raw ≠ "/" → normalizeRequest raw = sanitizePath raw := by
  refine ⟨by decide, ?_⟩
  intro raw h
  unfold normalizeRequest
  rw [if_neg h]

theorem index_substitution_precedes_normalization_witness :
    ("/a/../" : String) ≠ "/" ∧ normalizeRequest "/a/../" = sanitizePath "/a/../" :=
  ⟨by decide, index_substitution_precedes_normalization.2 "/a/../" (by decide)⟩

/-- C4: NewServer does reject an invalid document root, but
NewIncludesServer performs no check of the document root at all: with a
filesystem in which no path exists (so the root fails verifyDirectory)
and an existing empty include directory, it still returns a server and
a nil error, contradicting its own documentation. -/
theorem newIncludesServer_ignores_root :
    NewServer (fun _ => FKind.missing) "/bad" = (none, some ConsErr.rootInvalid) ∧
    verifyDirectory (fun _ => FKind.missing) "/bad" = false ∧
    NewIncludesServer "/bad" "/inc" (some (FNode.dir [])) =
      (some { templates := AssocMap.empty, includes := [], root := "/bad" }, none) := by
  refine ⟨rfl, rfl, ?_⟩
  simp [NewIncludesServer, loadIncludes, loadIncludesDir]

/-- C2: on a Broker with no registrations at all (nil registry), a
file-form lookup panics with a slice bounds violation instead of
returning the zero entry and false; only directory-form misses return
the no-match result. -/
theorem lookupHandler_empty_broker_panics :
    lookupHandler none "/a" =
      Except.error "panic: runtime error: slice bounds out of range" ∧
    lookupHandler none "/unknown/" = Except.ok (brokerEntry.zero, false) := by
  exact ⟨by decide, by decide⟩

/-- C9 counterexample: the very first registration on a fresh Broker
panics on the reserved index filename, yet it leaves the registry
initialized (a root bucket now exists) rather than exactly as it was
(nil). -/
theorem register_index_initializes_registry :
    (registerHandler none "/index.gohtml" ConstHandler
        (some (HandlerVal.constMap 0))).2.isSome = true ∧
    (registerHandler none "/index.gohtml" ConstHandler
        (some (HandlerVal.constMap 0))).1 ≠ none := by
  exact ⟨by decide, by decide⟩

/-! ## Route registry claims -/

/-- C5: with a directory handler at /docs/ and a file handler at
/docs/special.tmpl, the registered file resolves to the file handler,
an unregistered file beneath the directory resolves to the directory's
(index) handler, and an unregistered directory resolves to no match. -/
theorem resolution_precedence_scenario :
    (registerHandler none "/docs/" ConstHandler (some (HandlerVal.constMap 1))).2 = none ∧
    (registerHandler
        (registerHandler none "/docs/" ConstHandler (some (HandlerVal.constMap 1))).1
        "/docs/special.tmpl" ConstHandler (some (HandlerVal.constMap 2))).2 = none ∧
    lookupHandler
        (registerHandler
          (registerHandler none "/docs/" ConstHandler (some (HandlerVal.constMap 1))).1
          "/docs/special.tmpl" ConstHandler (some (HandlerVal.constMap 2))).1
        "/docs/special.tmpl" =
      Except.ok ({ cls := ConstHandler, mapHandler := some 2 }, true) ∧
    lookupHandler
        (registerHandler
          (registerHandler none "/docs/" ConstHandler (some (HandlerVal.constMap 1))).1
          "/docs/special.tmpl" ConstHandler (some (HandlerVal.constMap 2))).1
        "/docs/other.tmpl" =
      Except.ok ({ cls := ConstHandler, mapHandler := some 1 }, true) ∧
    lookupHandler
        (registerHandler
          (registerHandler none "/docs/" ConstHandler (some (HandlerVal.constMap 1))).1
          "/docs/special.tmpl" ConstHandler (some (HandlerVal.constMap 2))).1
        "/unknown/" = Except.ok (brokerEntry.zero, false) := by
  decide

theorem registerDirectory_panic (reg : RegMap) (pattern : String)
    (entry : brokerEntry)
    (h : (registerDirectory reg pattern entry).2.isSome = true) :
    (registerDirectory reg pattern entry).1 = reg := by
  unfold registerDirectory at h ⊢
  cases hfind : AssocMap.find? reg pattern with
  | none => simp only [hfind] at h; simp at h
  | some m =>
    simp only [hfind] at h ⊢
    by_cases hdup : (AssocMap.find? m pattern).isSome
    · simp only [hdup, if_true]
    · simp only [hdup, Bool.false_eq_true, if_false] at h
      simp at h

theorem registerFile_panic (reg : RegMap) (pattern : String) (entry : brokerEntry)
    (h : (registerFile reg pattern entry).2.isSome = true) :
    (registerFile reg pattern entry).1 = reg := by
  unfold registerFile at h ⊢
  by_cases hidx : (goPathSplit pattern).2 = DirectoryIndex
  · simp only [hidx, if_pos rfl]
    simp
  · simp only [if_neg hidx] at h ⊢
    cases hfind : AssocMap.find? reg (goPathSplit pattern).1 with
    | none => simp only [hfind] at h; simp at h
    | some m =>
      simp only [hfind] at h ⊢
      by_cases hdup : (AssocMap.find? m pattern).isSome
      · simp only [hdup, if_true]
      · simp only [hdup, Bool.false_eq_true, if_false] at h
        simp at h

theorem registerHandler_panic_state (st : Option RegMap) (pattern : String)
    (cls : Nat) (hv : Option HandlerVal)
    (hp : (registerHandler st pattern cls hv).2.isSome = true) :
    (registerHandler st pattern cls hv).1 = st ∨
      (st = none ∧ (registerHandler st pattern cls hv).1 = some rootOnlyReg) := by
  unfold registerHandler at hp ⊢
  by_cases hemp : pattern = ""
  · rw [if_pos hemp]; left; rfl
  · rw [if_neg hemp] at hp ⊢
    cases hv with
    | none => left; rfl
    | some h =>
      cases st with
      | none =>
        cases hbe : buildEntry cls h with
        | error msg => simp [hbe]
        | ok entry =>
          simp only [hbe] at hp ⊢
          by_cases hdir : pattern.data.getLast? = some '/'
          · rw [if_pos hdir] at hp ⊢
            right
            refine ⟨by simp, ?_⟩
            show some (registerDirectory rootOnlyReg pattern entry).1 = some rootOnlyReg
            rw [registerDirectory_panic _ _ _ hp]
          · rw [if_neg hdir] at hp ⊢
            right
            refine ⟨by simp, ?_⟩
            show some (registerFile rootOnlyReg pattern entry).1 = some rootOnlyReg
            rw [registerFile_panic _ _ _ hp]
      | some r =>
        cases hbe : buildEntry cls h with
        | error msg => simp [hbe]
        | ok entry =>
          simp only [hbe] at hp ⊢
          by_cases hdir : pattern.data.getLast? = some '/'
          · rw [if_pos hdir] at hp ⊢
            left
            show some (registerDirectory r pattern entry).1 = some r
            rw [registerDirectory_panic _ _ _ hp]
          · rw [if_neg hdir] at hp ⊢
            left
            show some (registerFile r pattern entry).1 = some r
            rw [registerFile_panic _ _ _ hp]

theorem registerHandler_trigger_panics (st : Option RegMap) (pattern : String)
    (cls : Nat) (hv : Option HandlerVal)
    (ht : (dupDirTrigger st pattern || dupFileTrigger st pattern ||
      indexFileTrigger pattern) = true) :
    (registerHandler st pattern cls hv).2.isSome = true := by
  by_cases hemp : pattern = ""
  · subst hemp
    unfold registerHandler
    rw [if_pos rfl]
    rfl
  · unfold registerHandler
    rw [if_neg hemp]
    cases hv with
    | none => rfl
    | some h =>
      cases hbe : buildEntry cls h with
      | error msg =>
        cases st with
        | none => simp only [hbe]; rfl
        | some r => simp only [hbe]; rfl
      | ok entry =>
        cases st with
        | none =>
          have hdd : dupDirTrigger none pattern = false := by
            unfold dupDirTrigger regFind
            simp
          have hdf : dupFileTrigger none pattern = false := by
            unfold dupFileTrigger regFind
            simp
          rw [hdd, hdf] at ht
          simp only [Bool.false_or] at ht
          have hidx := ht
          unfold indexFileTrigger at hidx
          simp only [Bool.and_eq_true, decide_eq_true_eq, Bool.not_eq_true',
            decide_eq_false_iff_not] at hidx
          obtain ⟨⟨_, hnd⟩, hsplit⟩ := hidx
          simp only [hbe]
          rw [if_neg hnd]
          show (registerFile rootOnlyReg pattern entry).2.isSome = true
          unfold registerFile
          rw [if_pos hsplit]
          rfl
        | some r =>
          simp only [hbe]
          by_cases hdir : pattern.data.getLast? = some '/'
          · have hdf : dupFileTrigger (some r) pattern = false := by
              unfold dupFileTrigger
              simp [hdir]
            have hidx : indexFileTrigger pattern = false := by
              unfold indexFileTrigger
              simp [hdir]
            rw [hdf, hidx] at ht
            simp only [Bool.or_false] at ht
            unfold dupDirTrigger at ht
            simp only [Bool.and_eq_true, decide_eq_true_eq] at ht
            obtain ⟨_, hmatch⟩ := ht
            rw [if_pos hdir]
            cases hreg : regFind (some r) pattern with
            | none =>
              rw [hreg] at hmatch
              exact Bool.noConfusion (show false = true from hmatch)
            | some m =>
              rw [hreg] at hmatch
              have hm2 : (AssocMap.find? m pattern).isSome = true := hmatch
              have hfr : AssocMap.find? r pattern = some m := hreg
              show (registerDirectory r pattern entry).2.isSome = true
              unfold registerDirectory
              simp only [hfr]
              simp [hm2]
          · have hdd : dupDirTrigger (some r) pattern = false := by
              unfold dupDirTrigger
              simp [hdir]
            rw [hdd] at ht
            simp only [Bool.false_or] at ht
            rw [if_neg hdir]
            show (registerFile r pattern entry).2.isSome = true
            rcases Bool.or_eq_true_iff.mp ht with hdf | hidx
            · unfold dupFileTrigger at hdf
              simp only [Bool.and_eq_true, decide_eq_true_eq] at hdf
              obtain ⟨⟨⟨_, _⟩, hni⟩, hmatch⟩ := hdf
              cases hreg : regFind (some r) (goPathSplit pattern).1 with
              | none =>
                rw [hreg] at hmatch
                exact Bool.noConfusion (show false = true from hmatch)
              | some m =>
                rw [hreg] at hmatch
                have hm2 : (AssocMap.find? m pattern).isSome = true := hmatch
                have hfr : AssocMap.find? r (goPathSplit pattern).1 = some m := hreg
                unfold registerFile
                simp only [if_neg hni, hfr]
                simp [hm2]
            · unfold indexFileTrigger at hidx
              simp only [Bool.and_eq_true, decide_eq_true_eq] at hidx
              obtain ⟨_, hsplit⟩ := hidx
              unfold registerFile
              rw [if_pos hsplit]
              rfl

theorem walkF_first_bucket (recurse : String → Except String (brokerEntry × Bool))
    (reg : Option RegMap) (pattern : String) :
    ∀ (bound : Nat) (comp : List Char) (pre : List (List Char)) (c : List Char)
      (post : List (List Char)) (bucket : AssocMap brokerEntry),
      walkComps bound comp = pre ++ c :: post →
      (∀ x ∈ pre, regFind reg (String.mk x) = none) →
      regFind reg (String.mk c) = some bucket →
      walkF recurse reg pattern bound comp =
        (match AssocMap.find? bucket pattern with
         | some s => Except.ok (s, true)
         | none => recurse (String.mk c)) := by
  intro bound
  induction bound with
  | zero =>
    intro comp pre c post bucket hw _ _
    exact absurd hw (by simp [walkComps])
  | succ b ih =>
    intro comp pre c post bucket hw hpre hc
    unfold walkComps at hw
    unfold walkF
    by_cases hroot : comp = ['/']
    · rw [if_pos hroot] at hw
      exact absurd hw (by simp)
    · rw [if_neg hroot] at hw
      rw [if_neg hroot]
      cases pre with
      | nil =>
        simp only [List.nil_append] at hw
        have hceq : stringBacktrace comp ['/'] = c := (List.cons.injEq _ _ _ _ ▸ hw).1
        rw [hceq, hc]
      | cons p0 ps =>
        simp only [List.cons_append, List.cons.injEq] at hw
        obtain ⟨hp0, htail⟩ := hw
        have hfound0 : regFind reg (String.mk (stringBacktrace comp ['/'])) = none := by
          rw [hp0]
          exact hpre p0 (List.mem_cons_self p0 ps)
        rw [hfound0]
        by_cases h0 : (stringBacktrace comp ['/']).length = 0
        · rw [if_pos h0] at htail
          exact absurd (List.append_eq_nil.mp htail.symm).2 (List.cons_ne_nil c post)
        · rw [if_neg h0] at htail
          rw [if_neg h0]
          exact ih _ ps c post bucket htail
            (fun x hx => hpre x (List.mem_cons_of_mem p0 hx)) hc

/-- C6: for a file-form lookup, once the walk reaches the first
(longest) enclosing directory prefix whose bucket exists, the result is
resultOfBucket of that one bucket - the exact entry for the full
pattern, else the directory or index entry of that directory, else no
match - and the buckets of all shorter (higher) prefixes are never
consulted, even when the found bucket yields no match at all. -/
theorem lookup_first_bucket_determines (reg : RegMap) (pattern : String)
    (pre : List (List Char)) (c : List Char) (post : List (List Char))
    (bucket : AssocMap brokerEntry)
    (hne : pattern ≠ "")
    (hfile : pattern.data.getLast? ≠ some '/')
    (hw : walkComps (pattern.data.length + 1) pattern.data = pre ++ c :: post)
    (hpre : ∀ x ∈ pre, AssocMap.find? reg (String.mk x) = none)
    (hc : AssocMap.find? reg (String.mk c) = some bucket)
    (hcs : c.getLast? = some '/') :
    lookupHandler (some reg) pattern =
      Except.ok (resultOfBucket bucket (String.mk c) pattern) := by
  have hlen : ¬pattern.data.length = 0 := by
    intro h0
    exact hne (congrArg String.mk (List.length_eq_zero.mp h0) :
      pattern = "")
  have hcne : c ≠ [] := by
    intro hcnil
    rw [hcnil] at hcs
    exact Option.noConfusion hcs
  unfold lookupHandler lookupHandlerF
  rw [if_neg hlen, if_neg hfile]
  rw [walkF_first_bucket (lookupHandlerF 1 (some reg)) (some reg) pattern
    (pattern.data.length + 1) pattern.data pre c post bucket hw hpre hc]
  cases hfb : AssocMap.find? bucket pattern with
  | some s =>
    unfold resultOfBucket
    rw [hfb]
  | none =>
    unfold resultOfBucket
    rw [hfb]
    show lookupHandlerF 1 (some reg) (String.mk c) = _
    unfold lookupHandlerF
    rw [if_neg (by simpa using fun h => hcne (List.length_eq_zero.mp h)),
      if_pos (show (String.mk c).data.getLast? = some '/' from hcs)]
    show (match AssocMap.find? reg (String.mk c) with
      | some e =>
        match AssocMap.find? e (String.mk c) with
        | some s => Except.ok (s, true)
        | none =>
          match AssocMap.find? e (goPathJoin (String.mk c) DirectoryIndex) with
          | some s => Except.ok (s, true)
          | none => Except.ok (brokerEntry.zero, false)
      | none => Except.ok (brokerEntry.zero, false)) = _
    simp only [hc]
    cases hdb : AssocMap.find? bucket (String.mk c) with
    | some s => simp only [hdb]
    | none =>
      simp only [hdb]
      cases hib : AssocMap.find? bucket (goPathJoin (String.mk c) DirectoryIndex) with
      | some s => simp only [hib]
      | none => simp only [hib]

theorem lookup_first_bucket_determines_witness :
    ("/docs/x/y.t" : String) ≠ "" ∧
    ("/docs/x/y.t" : String).data.getLast? ≠ some '/' ∧
    walkComps (("/docs/x/y.t" : String).data.length + 1) ("/docs/x/y.t" : String).data =
      ["/docs/x/".data] ++ "/docs/".data :: ["/".data, []] ∧
    (∀ x ∈ [("/docs/x/" : String).data],
      AssocMap.find? ([("/docs/", AssocMap.empty)] : RegMap) (String.mk x) = none) ∧
    AssocMap.find? ([("/docs/", AssocMap.empty)] : RegMap)
      (String.mk ("/docs/" : String).data) = some AssocMap.empty ∧
    (("/docs/" : String).data).getLast? = some '/' ∧
    lookupHandler (some ([("/docs/", AssocMap.empty)] : RegMap)) "/docs/x/y.t" =
      Except.ok (resultOfBucket AssocMap.empty (String.mk ("/docs/" : String).data)
        "/docs/x/y.t") ∧
    resultOfBucket AssocMap.empty (String.mk ("/docs/" : String).data) "/docs/x/y.t" =
      (brokerEntry.zero, false) :=
  ⟨by decide, by decide, by decide, by decide, by decide, by decide,
   lookup_first_bucket_determines ([("/docs/", AssocMap.empty)] : RegMap)
     "/docs/x/y.t" ["/docs/x/".data] ("/docs/" : String).data ["/".data, []]
     AssocMap.empty (by decide) (by decide) (by decide) (by decide) (by decide)
     (by decide),
   by decide⟩

theorem stringBacktrace_length_le (orig sep : List Char) :
    (stringBacktrace orig sep).length ≤ orig.length := by
  unfold stringBacktrace
  cases h : lastIndexOf orig sep with
  | none => exact Nat.le_refl _
  | some i =>
    rw [List.length_take]
    exact Nat.min_le_right _ _

/-- The step bound of walkF is semantically inert: any bound larger than
the length of comp gives the walk's true result, so the bound
comp.length + 1 used by lookupHandlerF never exhausts. -/
theorem walkF_bound_sufficient (recurse : String → Except String (brokerEntry × Bool))
    (reg : Option RegMap) (pattern : String) :
    ∀ (bound : Nat) (comp : List Char), comp.length < bound →
      walkF recurse reg pattern bound comp =
        walkF recurse reg pattern (comp.length + 1) comp := by
  intro bound
  induction bound using Nat.strong_induction_on with
  | _ bound ih =>
    intro comp hlt
    obtain ⟨b, rfl⟩ : ∃ b, bound = b + 1 := ⟨bound - 1, by omega⟩
    show walkF recurse reg pattern (b + 1) comp =
      walkF recurse reg pattern (comp.length + 1) comp
    unfold walkF
    by_cases hroot : comp = ['/']
    · rw [if_pos hroot, if_pos hroot]
    · rw [if_neg hroot, if_neg hroot]
      cases hfind : regFind reg (String.mk (stringBacktrace comp ['/'])) with
      | some e => simp only [hfind]
      | none =>
        simp only [hfind]
        by_cases h0 : (stringBacktrace comp ['/']).length = 0
        · rw [if_pos h0, if_pos h0]
        · rw [if_neg h0, if_neg h0]
          have hcl : (stringBacktrace comp ['/']).length ≤ comp.length :=
            stringBacktrace_length_le comp ['/']
          have hlen' :
              ((stringBacktrace comp ['/']).take
                ((stringBacktrace comp ['/']).length - 1)).length < comp.length := by
            rw [List.length_take]
            omega
          rw [ih b (by omega) _ (by omega), ih comp.length (by omega) _ (by omega)]

/-- C9 (amended): registering a duplicate directory, a duplicate exact
file path, or a file named as the reserved index each panics; every
panicking registration leaves an already-initialized registry exactly
as it was, and on a fresh Broker (nil registry) it leaves at most the
lazily created empty root bucket, so no entry is added, changed or
removed and previously resolving lookups are unaffected. -/
theorem register_panic_preserves_registry (st : Option RegMap) (pattern : String)
    (cls : Nat) (hv : Option HandlerVal) :
    ((dupDirTrigger st pattern || dupFileTrigger st pattern ||
        indexFileTrigger pattern) = true →
      (registerHandler st pattern cls hv).2.isSome = true) ∧
    ((registerHandler st pattern cls hv).2.isSome = true →
      (registerHandler st pattern cls hv).1 = st ∨
        (st = none ∧ (registerHandler st pattern cls hv).1 = some rootOnlyReg)) :=
  ⟨registerHandler_trigger_panics st pattern cls hv,
   registerHandler_panic_state st pattern cls hv⟩

theorem register_panic_preserves_registry_witness :
    ((dupDirTrigger
        (registerHandler none "/docs/" ConstHandler (some (HandlerVal.constMap 1))).1
        "/docs/" ||
      dupFileTrigger
        (registerHandler none "/docs/" ConstHandler (some (HandlerVal.constMap 1))).1
        "/docs/" ||
      indexFileTrigger "/docs/") = true) ∧
    ((registerHandler
        (registerHandler none "/docs/" ConstHandler (some (HandlerVal.constMap 1))).1
        "/docs/" ConstHandler (some (HandlerVal.constMap 2))).2.isSome = true) ∧
    ((registerHandler
        (registerHandler none "/docs/" ConstHandler (some (HandlerVal.constMap 1))).1
        "/docs/" ConstHandler (some (HandlerVal.constMap 2))).1 =
      (registerHandler none "/docs/" ConstHandler (some (HandlerVal.constMap 1))).1 ∨
      ((registerHandler none "/docs/" ConstHandler (some (HandlerVal.constMap 1))).1 =
          none ∧
        (registerHandler
          (registerHandler none "/docs/" ConstHandler
            (some (HandlerVal.constMap 1))).1
          "/docs/" ConstHandler (some (HandlerVal.constMap 2))).1 =
          some rootOnlyReg)) :=
  ⟨by decide,
   (register_panic_preserves_registry _ "/docs/" ConstHandler
     (some (HandlerVal.constMap 2))).1 (by decide),
   (register_panic_preserves_registry _ "/docs/" ConstHandler
     (some (HandlerVal.constMap 2))).2
     ((register_panic_preserves_registry _ "/docs/" ConstHandler
       (some (HandlerVal.constMap 2))).1 (by decide))⟩

/-! ## Checks against the test suite and spec test vectors -/

example : sanitizePath "" = "/" := by decide
example : sanitizePath "/a/b" = "/a/b" := by decide
example : sanitizePath "/a/b/" = "/a/b" := by decide
example : sanitizePath "/a/../" = "/" := by decide
example : sanitizePath "/a/../../b" = "/b" := by decide
example : clean "//a//b" = "/a/b" := by decide
example : goPathJoin "/docs/" DirectoryIndex = "/docs/index.gohtml" := by decide
example : goPathSplit "/docs/special.tmpl" = ("/docs/", "special.tmpl") := by decide
example : verifyDirectory (fun p => if p = "t" then FKind.dir else FKind.missing)
    "t" = true := by decide
example : verifyDirectory (fun p => if p = "t" then FKind.file else FKind.missing)
    "t" = false := by decide
example : lookupHandler (some rootOnlyReg) "/a" =
    Except.ok (brokerEntry.zero, false) := by decide

end Gtemplate
